import Mathlib

/-!
Verification development for the ChatBot repository (src/streamlit_app.py).

Part A embeds the answer-splitting logic of `generate_three_answers`
(src/streamlit_app.py lines 132-147).  Python strings are embedded as
`List Char`; Python `str.strip()` is `pyStrip`, `pat in s` is `containsSub`,
`s.split(pat, 1)[1]` (with `pat` present) is `afterFirst`, and
`s.split(pat, 1)[0]` is `beforeFirst`.

Part B embeds the Streamlit session-state machine (history / candidates /
pending_selection / last_usage / auto_preview) and the event handlers:
reset button (lines 91-97), selection buttons (lines 318-336), the
regenerate button (lines 338-353), the chat-input handler (lines 367-402),
and the auto-preview toggle (line 64).
-/

namespace ChatBot

/-- Characters removed by Python `str.strip()` (ASCII whitespace). -/
def isPySpace (c : Char) : Bool :=
  c = ' ' || c = '\t' || c = '\n' || c = '\r' || c = Char.ofNat 11 || c = Char.ofNat 12

/-- Left strip: Python `str.lstrip()`. -/
def ltrim (l : List Char) : List Char := l.dropWhile isPySpace

/-- Right strip: Python `str.rstrip()`. -/
def rtrim (l : List Char) : List Char := (l.reverse.dropWhile isPySpace).reverse

/-- Python `str.strip()`. -/
def pyStrip (l : List Char) : List Char := rtrim (ltrim l)

/-- Python substring test `pat in s`. -/
def containsSub (pat : List Char) : List Char → Bool
  | [] => pat.isEmpty
  | c :: rest => pat.isPrefixOf (c :: rest) || containsSub pat rest

/-- Suffix after the first occurrence of `pat`: Python `s.split(pat, 1)[1]`
when `pat` occurs in `s` (only used under a `containsSub` guard). -/
def afterFirst (pat : List Char) : List Char → List Char
  | [] => []
  | c :: rest =>
    if pat.isPrefixOf (c :: rest) then (c :: rest).drop pat.length
    else afterFirst pat rest

/-- Segment before the first occurrence of `pat`: Python `s.split(pat, 1)[0]`
when `pat` occurs in `s` (only used under a `containsSub` guard). -/
def beforeFirst (pat : List Char) : List Char → List Char
  | [] => []
  | c :: rest =>
    if pat.isPrefixOf (c :: rest) then []
    else c :: beforeFirst pat rest

/-- Number of positions of `l` at which `pat` occurs (overlaps counted). -/
def countOcc (pat : List Char) : List Char → Nat
  | [] => if pat.isEmpty then 1 else 0
  | c :: rest => (if pat.isPrefixOf (c :: rest) then 1 else 0) + countOcc pat rest

/-- The marker `[KR_SHORT]` from the prompt template. -/
def mKRS : List Char := "[KR_SHORT]".data

/-- The marker `[KR_LONG]` from the prompt template. -/
def mKRL : List Char := "[KR_LONG]".data

/-- The marker `[EN]` from the prompt template. -/
def mEN : List Char := "[EN]".data

/-- The nested helper `part(label_from, label_to=None)` of
`generate_three_answers` (src/streamlit_app.py lines 134-140):

    if label_from not in full: return ""
    seg = full.split(label_from, 1)[1]
    if label_to and label_to in seg:
        seg = seg.split(label_to, 1)[0]
    return seg.strip()

`labelTo = none` models Python `label_to = None`; the truthiness test
`label_to and ...` is the `!lt.isEmpty` conjunct. -/
def part (full labelFrom : List Char) (labelTo : Option (List Char)) : List Char :=
  if containsSub labelFrom full then
    let seg := afterFirst labelFrom full
    let seg2 :=
      match labelTo with
      | some lt => if !lt.isEmpty && containsSub lt seg then beforeFirst lt seg else seg
      | none => seg
    pyStrip seg2
  else []

/-- The splitting logic of `generate_three_answers`
(src/streamlit_app.py lines 132-147) applied to the raw model output
`content` (`resp.choices[0].message.content or ""`):

    full = (... or "").strip()
    kr_short = part("[KR_SHORT]", "[KR_LONG]") or ""
    kr_long  = part("[KR_LONG]", "[EN]") or ""
    en_ans   = part("[EN]") or ""
    if not (kr_short or kr_long or en_ans):
        kr_short = full

(`x or ""` is the identity on strings, so it is dropped.)  Returns the
triple `(kr_short, kr_long, en)` of the returned dict. -/
def generate_three_answers_split (content : List Char) :
    List Char × List Char × List Char :=
  let full := pyStrip content
  let kr_short := part full mKRS (some mKRL)
  let kr_long := part full mKRL (some mEN)
  let en_ans := part full mEN none
  if kr_short.isEmpty && kr_long.isEmpty && en_ans.isEmpty then
    (full, kr_long, en_ans)
  else
    (kr_short, kr_long, en_ans)

/-- Role of a history entry (`"user"` or `"assistant"`). -/
inductive Role
  | user
  | assistant
deriving DecidableEq, Repr

/-- One history entry, the dict `{"role": ..., "content": ...}`. -/
structure Message where
  role : Role
  content : String
deriving DecidableEq, Repr

/-- The three-key dict returned by `generate_three_answers` (line 158). -/
structure Candidates where
  kr_short : String
  kr_long : String
  en : String
deriving DecidableEq, Repr

/-- The usage dict built at lines 151-156. -/
structure Usage where
  prompt_tokens : Option Nat
  completion_tokens : Option Nat
  total_tokens : Option Nat
deriving DecidableEq, Repr

/-- The Streamlit session state initialised at lines 27-36.  The candidates
dict is only ever the empty dict `{}` (modelled `none`) or a full three-key
dict (modelled `some c`). -/
structure AppState where
  history : List Message
  candidates : Option Candidates
  pending_selection : Bool
  last_usage : Option Usage
  auto_preview : Bool
deriving DecidableEq, Repr

/-- The three selection buttons (KR short / KR long / EN). -/
inductive Label
  | krShort
  | krLong
  | en
deriving DecidableEq, Repr

/-- Python `cand.get("kr_short", "")` etc. for the three labels. -/
def Candidates.get : Candidates → Label → String
  | c, Label.krShort => c.kr_short
  | c, Label.krLong => c.kr_long
  | c, Label.en => c.en

/-- Python `isinstance(cand, dict) and any(cand.values())` (line 290); the
empty dict is `none` and has no truthy value. -/
def anyValue : Option Candidates → Bool
  | none => false
  | some c => !(c.kr_short == "") || !(c.kr_long == "") || !(c.en == "")

/-- Render gate of the candidate section (line 290):
`ss.pending_selection and isinstance(cand, dict) and any(cand.values())`.
All candidate-section buttons (selection, regenerate) exist only when this
gate holds. -/
def candidateGate (s : AppState) : Bool :=
  s.pending_selection && anyValue s.candidates

/-- Initial session state (lines 27-36). -/
def initState : AppState :=
  { history := [],
    candidates := none,
    pending_selection := false,
    last_usage := none,
    auto_preview := true }

/-- Reset button handler (lines 91-97): clears history, candidates,
pending_selection and last_usage; the auto-preview toggle is untouched. -/
def resetStep (s : AppState) : AppState :=
  { s with
      history := [],
      candidates := none,
      pending_selection := false,
      last_usage := none }

/-- Selection button handler for label `lab` (lines 318-336): append the
chosen candidate as an assistant message, clear the pending flag and the
candidates dict.  The buttons are rendered only under `candidateGate`, so
the step is the identity otherwise. -/
def selectStep (s : AppState) (lab : Label) : AppState :=
  if candidateGate s then
    match s.candidates with
    | some c =>
      { s with
          history := s.history ++ [{ role := Role.assistant, content := c.get lab }],
          pending_selection := false,
          candidates := none }
    | none => s
  else s

/-- Dynamic type of an exception raised by the `generate_three_answers` call.
httpx's `HTTPStatusError` carries the response status code and text; the
OpenAI client's `AuthenticationError` and `RateLimitError` are their own
exception classes — none of the three types imported from httpx at lines
9-12 — and carry their message text, as does any other exception. -/
inductive ExcKind
  | httpStatusError (code : Option Nat) (text : String)
  | connectError
  | readTimeout
  | authenticationError (msg : String)
  | rateLimitError (msg : String)
  | otherException (msg : String)
deriving DecidableEq, Repr

/-- Outcome of one call to `generate_three_answers`: the candidates dict and
usage on success, or a raised exception. -/
inductive SynthResult
  | ok (cand : Candidates) (usage : Option Usage)
  | err (e : ExcKind)
deriving DecidableEq, Repr

/-- The three except blocks of the chat-input handler (lines 387-400). -/
inductive ErrBranch
  | apiStatus
  | network
  | unclassified
deriving DecidableEq, Repr

/-- Which except block of the chat-input handler (lines 387-400) catches an
exception of the given kind, by `isinstance` dispatch: `HTTPStatusError`
first, then `(ConnectError, ReadTimeout)`, then bare `Exception`.  The OpenAI
client's authentication and rate-limit errors are neither `HTTPStatusError`
nor `ConnectError`/`ReadTimeout`, so they fall through to the bare
`except Exception` block. -/
def catchBranch : ExcKind → ErrBranch
  | ExcKind.httpStatusError _ _ => ErrBranch.apiStatus
  | ExcKind.connectError => ErrBranch.network
  | ExcKind.readTimeout => ErrBranch.network
  | ExcKind.authenticationError _ => ErrBranch.unclassified
  | ExcKind.rateLimitError _ => ErrBranch.unclassified
  | ExcKind.otherException _ => ErrBranch.unclassified

/-- Python f-string rendering of `getattr(e.response, "status_code", None)`. -/
def showOptNat : Option Nat → String
  | none => "None"
  | some n => toString n

/-- The `st.error` message produced by the except chain (lines 387-398):
`f"API 오류(\x7bcode\x7d): \x7btext\x7d"` with `text` truncated to 500
characters for an `HTTPStatusError`, a fixed network message for
`ConnectError`/`ReadTimeout`, and
`f"알 수 없는 오류(응답 생성 단계): \x7be\x7d"` for everything else. -/
def errDisplay : ExcKind → String
  | ExcKind.httpStatusError code text =>
      "API 오류(" ++ showOptNat code ++ "): " ++ text.take 500
  | ExcKind.connectError => "네트워크 문제로 실패했습니다. 잠시 후 다시 시도해 주세요."
  | ExcKind.readTimeout => "네트워크 문제로 실패했습니다. 잠시 후 다시 시도해 주세요."
  | ExcKind.authenticationError msg => "알 수 없는 오류(응답 생성 단계): " ++ msg
  | ExcKind.rateLimitError msg => "알 수 없는 오류(응답 생성 단계): " ++ msg
  | ExcKind.otherException msg => "알 수 없는 오류(응답 생성 단계): " ++ msg

/-- The preview expression of line 382:
`candidates.get("kr_short") or candidates.get("kr_long") or candidates.get("en") or ""`. -/
def previewOf (c : Candidates) : String :=
  if c.kr_short ≠ "" then c.kr_short
  else if c.kr_long ≠ "" then c.kr_long
  else if c.en ≠ "" then c.en
  else ""

/-- Chat-input handler (lines 367-402) for input `q` with synthesis outcome
`r`.  A falsy (empty) input does nothing.  Otherwise the user message is
appended first; on success the fresh candidates, usage and pending flag are
stored and, when auto-preview is on and the preview text is non-empty, a
preview assistant message is appended; on any exception the error is shown,
the candidates dict is cleared and the pending flag reset (last_usage and
the appended user message are left as they are). -/
def submitStep (s : AppState) (q : String) (r : SynthResult) : AppState :=
  if q = "" then s
  else
    let s1 := { s with history := s.history ++ [Message.mk Role.user q] }
    match r with
    | SynthResult.ok c u =>
      let s2 :=
        { s1 with
            candidates := some c,
            last_usage := u,
            pending_selection := true }
      if s2.auto_preview ∧ previewOf c ≠ "" then
        { s2 with
            history := s2.history ++
              [Message.mk Role.assistant ("(미리보기)\n" ++ previewOf c)] }
      else s2
    | SynthResult.err _ =>
      { s1 with candidates := none, pending_selection := false }

/-- Regenerate button handler (lines 338-353), with `r` the outcome of the
re-invoked synthesis.  Returns the next state paired with whether
`generate_three_answers` was actually called.  `last_q` is the content of
the last history entry when that entry exists and has role `"user"`, else
`None`; synthesis runs only when `last_q` is truthy.  On an exception the
error is shown and the state is unchanged.  The button is rendered only
under `candidateGate`. -/
def regenStep (s : AppState) (r : SynthResult) : AppState × Bool :=
  if candidateGate s then
    match s.history.getLast? with
    | some m =>
      if m.role = Role.user ∧ m.content ≠ "" then
        match r with
        | SynthResult.ok c u =>
          ({ s with
               candidates := some c,
               last_usage := u,
               pending_selection := true },
           true)
        | SynthResult.err _ => (s, true)
      else (s, false)
    | none => (s, false)
  else (s, false)

/-- Sidebar auto-preview toggle (line 64): every rerun stores the widget
value back into the session state. -/
def setAutoPreview (s : AppState) (b : Bool) : AppState :=
  { s with auto_preview := b }

/-- The candidate mapping stored by the chat-input handler for outcome `r`:
the fresh set on success, the empty dict on failure. -/
def freshCandidates : SynthResult → Option Candidates
  | SynthResult.ok c _ => some c
  | SynthResult.err _ => none

/-- Session states reachable from the initial state by the user interactions
of the page: reset, candidate selection, candidate regeneration, chat input
and the auto-preview toggle. -/
inductive Reachable : AppState → Prop
  | init : Reachable initState
  | reset {s : AppState} : Reachable s → Reachable (resetStep s)
  | select {s : AppState} (lab : Label) : Reachable s → Reachable (selectStep s lab)
  | regen {s : AppState} (r : SynthResult) : Reachable s → Reachable (regenStep s r).1
  | submit {s : AppState} (q : String) (r : SynthResult) :
      Reachable s → Reachable (submitStep s q r)
  | toggle {s : AppState} (b : Bool) : Reachable s → Reachable (setAutoPreview s b)

/-- A sample candidate set, used to instantiate witnesses. -/
def sampleCands : Candidates :=
  { kr_short := "간결한 답", kr_long := "자세한 답", en := "An answer" }

/-- A sample usage dict, used to instantiate witnesses. -/
def sampleUsage : Usage :=
  { prompt_tokens := some 10, completion_tokens := some 20, total_tokens := some 30 }

/-- A sample awaiting-selection state whose last history entry is the user
question. -/
def samplePending : AppState :=
  { history := [{ role := Role.user, content := "질문" }],
    candidates := some sampleCands,
    pending_selection := true,
    last_usage := some sampleUsage,
    auto_preview := false }

/-- A sample awaiting-selection state whose last history entry is a preview
assistant message. -/
def sampleAfterPreview : AppState :=
  { history := [{ role := Role.user, content := "질문" },
                { role := Role.assistant, content := "(미리보기)\n간결한 답" }],
    candidates := some sampleCands,
    pending_selection := true,
    last_usage := none,
    auto_preview := true }

/-! Helper lemmas about substring search, occurrence counting and stripping. -/

theorem isPrefixOf_append_self (pat y : List Char) :
    pat.isPrefixOf (pat ++ y) = true := by
  have h : pat <+: pat ++ y := List.prefix_append pat y
  exact List.isPrefixOf_iff_prefix.mpr h

theorem isPrefixOf_append_extend {pat l : List Char} (y : List Char)
    (h : pat.isPrefixOf l = true) : pat.isPrefixOf (l ++ y) = true := by
  have h1 : pat <+: l := List.isPrefixOf_iff_prefix.mp h
  exact List.isPrefixOf_iff_prefix.mpr (h1.trans (List.prefix_append l y))

theorem countOcc_nil (pat : List Char) :
    countOcc pat [] = if pat.isEmpty then 1 else 0 := rfl

theorem countOcc_cons (pat : List Char) (c : Char) (l : List Char) :
    countOcc pat (c :: l)
      = (if pat.isPrefixOf (c :: l) then 1 else 0) + countOcc pat l := rfl

theorem containsSub_cons (pat : List Char) (c : Char) (l : List Char) :
    containsSub pat (c :: l) = (pat.isPrefixOf (c :: l) || containsSub pat l) := rfl

theorem countOcc_cons_le (pat : List Char) (c : Char) (l : List Char) :
    countOcc pat l ≤ countOcc pat (c :: l) := by
  rw [countOcc_cons]
  omega

theorem countOcc_le_append_left (pat x l : List Char) :
    countOcc pat l ≤ countOcc pat (x ++ l) := by
  induction x with
  | nil => simp
  | cons c x' ih =>
    rw [List.cons_append]
    exact le_trans ih (countOcc_cons_le pat c (x' ++ l))

theorem countOcc_le_append_right (pat l y : List Char) (hp : pat ≠ []) :
    countOcc pat l ≤ countOcc pat (l ++ y) := by
  induction l with
  | nil =>
    have h0 : pat.isEmpty = false := by
      cases pat with
      | nil => exact absurd rfl hp
      | cons a t => rfl
    simp [countOcc_nil, h0]
  | cons c t ih =>
    rw [List.cons_append, countOcc_cons, countOcc_cons]
    by_cases h1 : pat.isPrefixOf (c :: t) = true
    · have h2 : pat.isPrefixOf (c :: (t ++ y)) = true := by
        have h3 := isPrefixOf_append_extend y h1
        rwa [List.cons_append] at h3
      rw [h1, h2]
      omega
    · have h1' : pat.isPrefixOf (c :: t) = false := by
        cases h : pat.isPrefixOf (c :: t) with
        | false => rfl
        | true => exact absurd h h1
      rw [h1']
      cases h2 : pat.isPrefixOf (c :: (t ++ y)) <;> simp <;> omega

theorem containsSub_iff_countOcc_pos (pat l : List Char) :
    containsSub pat l = true ↔ 1 ≤ countOcc pat l := by
  induction l with
  | nil =>
    cases hp : pat.isEmpty <;> simp [containsSub, countOcc_nil, hp]
  | cons c t ih =>
    rw [containsSub_cons, countOcc_cons]
    by_cases h1 : pat.isPrefixOf (c :: t) = true
    · simp [h1]
    · have h1' : pat.isPrefixOf (c :: t) = false := by
        cases h : pat.isPrefixOf (c :: t) with
        | false => rfl
        | true => exact absurd h h1
      simp [h1', ih]

theorem containsSub_decomp (pat x y : List Char) :
    containsSub pat (x ++ (pat ++ y)) = true := by
  induction x with
  | nil =>
    rw [List.nil_append]
    cases h : pat ++ y with
    | nil =>
      have hp : pat = [] := (List.append_eq_nil.mp h).1
      simp [containsSub, hp]
    | cons c rest =>
      have h1 : pat.isPrefixOf (c :: rest) = true := by
        rw [← h]; exact isPrefixOf_append_self pat y
      simp [containsSub_cons, h1]
  | cons e x' ih =>
    rw [List.cons_append, containsSub_cons, ih]
    simp

theorem countOcc_decomp_pos (pat x y : List Char) :
    1 ≤ countOcc pat (x ++ (pat ++ y)) :=
  (containsSub_iff_countOcc_pos pat _).mp (containsSub_decomp pat x y)

theorem afterFirst_cons (pat : List Char) (c : Char) (l : List Char) :
    afterFirst pat (c :: l)
      = if pat.isPrefixOf (c :: l) then (c :: l).drop pat.length
        else afterFirst pat l := rfl

theorem beforeFirst_cons (pat : List Char) (c : Char) (l : List Char) :
    beforeFirst pat (c :: l)
      = if pat.isPrefixOf (c :: l) then [] else c :: beforeFirst pat l := rfl

theorem afterFirst_decomp_unique (pat x y : List Char)
    (h : countOcc pat (x ++ (pat ++ y)) = 1) :
    afterFirst pat (x ++ (pat ++ y)) = y := by
  induction x with
  | nil =>
    rw [List.nil_append]
    cases hl : pat ++ y with
    | nil =>
      obtain ⟨hp, hy⟩ := List.append_eq_nil.mp hl
      subst hp; subst hy; rfl
    | cons c rest =>
      have h1 : pat.isPrefixOf (c :: rest) = true := by
        rw [← hl]; exact isPrefixOf_append_self pat y
      have h2 : (c :: rest).drop pat.length = y := by
        rw [← hl]; exact List.drop_left pat y
      rw [afterFirst_cons, h1, if_pos rfl, h2]
  | cons e x' ih =>
    rw [List.cons_append] at h ⊢
    have hge : 1 ≤ countOcc pat (x' ++ (pat ++ y)) := countOcc_decomp_pos pat x' y
    have h1 : pat.isPrefixOf (e :: (x' ++ (pat ++ y))) = false := by
      cases hh : pat.isPrefixOf (e :: (x' ++ (pat ++ y))) with
      | false => rfl
      | true =>
        exfalso
        rw [countOcc_cons, hh, if_pos rfl] at h
        omega
    have hcnt : countOcc pat (x' ++ (pat ++ y)) = 1 := by
      rw [countOcc_cons, h1] at h
      simpa using h
    rw [afterFirst_cons, h1]
    simp only [Bool.false_eq_true, if_false]
    exact ih hcnt

theorem beforeFirst_decomp_unique (pat x y : List Char)
    (h : countOcc pat (x ++ (pat ++ y)) = 1) :
    beforeFirst pat (x ++ (pat ++ y)) = x := by
  induction x with
  | nil =>
    rw [List.nil_append]
    cases hl : pat ++ y with
    | nil => rfl
    | cons c rest =>
      have h1 : pat.isPrefixOf (c :: rest) = true := by
        rw [← hl]; exact isPrefixOf_append_self pat y
      rw [beforeFirst_cons, h1, if_pos rfl]
  | cons e x' ih =>
    rw [List.cons_append] at h ⊢
    have h1 : pat.isPrefixOf (e :: (x' ++ (pat ++ y))) = false := by
      cases hh : pat.isPrefixOf (e :: (x' ++ (pat ++ y))) with
      | false => rfl
      | true =>
        exfalso
        have hge : 1 ≤ countOcc pat (x' ++ (pat ++ y)) := countOcc_decomp_pos pat x' y
        rw [countOcc_cons, hh, if_pos rfl] at h
        omega
    have hcnt : countOcc pat (x' ++ (pat ++ y)) = 1 := by
      rw [countOcc_cons, h1] at h
      simpa using h
    rw [beforeFirst_cons, h1]
    simp only [Bool.false_eq_true, if_false]
    rw [ih hcnt]

theorem dropWhile_append_cons_of_neg (p : Char → Bool) (x t : List Char) (h : Char)
    (hh : p h = false) :
    (x ++ h :: t).dropWhile p = x.dropWhile p ++ h :: t := by
  induction x with
  | nil => simp [List.dropWhile_cons, hh]
  | cons c x' ih =>
    rw [List.cons_append, List.dropWhile_cons, List.dropWhile_cons]
    cases hc : p c <;> simp [ih]

theorem ltrim_append_cons (x t : List Char) (h : Char) (hh : isPySpace h = false) :
    ltrim (x ++ h :: t) = ltrim x ++ h :: t :=
  dropWhile_append_cons_of_neg isPySpace x t h hh

theorem rtrim_append_cons (x d : List Char) (ch : Char) (hch : isPySpace ch = false) :
    rtrim (x ++ ch :: d) = x ++ ch :: rtrim d := by
  rw [rtrim, rtrim]
  rw [List.reverse_append, List.reverse_cons]
  rw [List.append_assoc, List.singleton_append]
  rw [dropWhile_append_cons_of_neg isPySpace d.reverse x.reverse ch hch]
  rw [List.reverse_append, List.reverse_cons, List.reverse_reverse]
  rw [List.append_assoc, List.singleton_append]

theorem dropWhile_append_split (p : Char → Bool) (x y : List Char) :
    (x ++ y).dropWhile p
      = if x.dropWhile p = [] then y.dropWhile p else x.dropWhile p ++ y := by
  induction x with
  | nil => simp
  | cons c x' ih =>
    rw [List.cons_append, List.dropWhile_cons, List.dropWhile_cons]
    cases hc : p c with
    | true => simpa using ih
    | false => simp

theorem rtrim_append_split (x y : List Char) :
    rtrim (x ++ y) = if rtrim y = [] then rtrim x else x ++ rtrim y := by
  rw [rtrim, List.reverse_append, dropWhile_append_split]
  by_cases hy : y.reverse.dropWhile isPySpace = []
  · have hy' : rtrim y = [] := by rw [rtrim, hy]; rfl
    rw [if_pos hy, if_pos hy']
    rfl
  · have hy' : rtrim y ≠ [] := by
      rw [rtrim]
      intro hcon
      exact hy (List.reverse_eq_nil_iff.mp hcon)
    rw [if_neg hy, if_neg hy']
    rw [List.reverse_append, List.reverse_reverse]
    rfl

theorem rtrim_eq_nil_of_all (l : List Char) (h : ∀ c ∈ l, isPySpace c = true) :
    rtrim l = [] := by
  rw [rtrim]
  have h1 : l.reverse.dropWhile isPySpace = [] := by
    rw [List.dropWhile_eq_nil_iff]
    intro x hx
    exact h x (List.mem_reverse.mp hx)
  rw [h1]
  rfl

theorem ltrim_append_of_all (x y : List Char) (h : ∀ c ∈ x, isPySpace c = true) :
    ltrim (x ++ y) = ltrim y := by
  induction x with
  | nil => rfl
  | cons c x' ih =>
    rw [List.cons_append, ltrim, List.dropWhile_cons,
        if_pos (h c (List.mem_cons_self c x'))]
    exact ih fun a ha => h a (List.mem_cons_of_mem c ha)

theorem dropWhile_head_not (p : Char → Bool) (l : List Char) (h : Char) (t : List Char)
    (hl : l.dropWhile p = h :: t) : p h = false := by
  induction l with
  | nil => simp at hl
  | cons c rest ih =>
    rw [List.dropWhile_cons] at hl
    cases hc : p c with
    | true =>
      rw [hc] at hl
      simp at hl
      exact ih hl
    | false =>
      rw [hc] at hl
      simp at hl
      rw [← hl.1]
      exact hc

theorem dropWhile_dropWhile (p : Char → Bool) (l : List Char) :
    (l.dropWhile p).dropWhile p = l.dropWhile p := by
  cases h : l.dropWhile p with
  | nil => rfl
  | cons c t =>
    rw [List.dropWhile_cons, if_neg]
    rw [dropWhile_head_not p l c t h]
    simp

theorem rtrim_rtrim (l : List Char) : rtrim (rtrim l) = rtrim l := by
  rw [rtrim, rtrim, List.reverse_reverse, dropWhile_dropWhile]

theorem rtrim_append_takeWhile (l : List Char) :
    rtrim l ++ (l.reverse.takeWhile isPySpace).reverse = l := by
  rw [rtrim, ← List.reverse_append, List.takeWhile_append_dropWhile, List.reverse_reverse]

theorem ltrim_rtrim_comm (l : List Char) : ltrim (rtrim l) = rtrim (ltrim l) := by
  have hdec : l = l.takeWhile isPySpace ++ l.dropWhile isPySpace :=
    (List.takeWhile_append_dropWhile isPySpace l).symm
  have htw : ∀ c ∈ l.takeWhile isPySpace, isPySpace c = true :=
    fun c hc => List.mem_takeWhile_imp hc
  have hsplit : rtrim l
      = if rtrim (l.dropWhile isPySpace) = [] then rtrim (l.takeWhile isPySpace)
        else l.takeWhile isPySpace ++ rtrim (l.dropWhile isPySpace) := by
    conv_lhs => rw [hdec]
    exact rtrim_append_split _ _
  by_cases hnil : rtrim (l.dropWhile isPySpace) = []
  · rw [hsplit, if_pos hnil, rtrim_eq_nil_of_all _ htw]
    rw [show ltrim l = l.dropWhile isPySpace from rfl] at *
    rw [hnil]
    rfl
  · rw [hsplit, if_neg hnil]
    cases hrd : rtrim (l.dropWhile isPySpace) with
    | nil => exact absurd hrd hnil
    | cons h' t' =>
      have hpre : l.dropWhile isPySpace = (h' :: t') ++
          ((l.dropWhile isPySpace).reverse.takeWhile isPySpace).reverse := by
        conv_lhs => rw [← rtrim_append_takeWhile (l.dropWhile isPySpace)]
        rw [hrd]
      have hh' : isPySpace h' = false := by
        have hpre' := hpre
        rw [List.cons_append] at hpre'
        exact dropWhile_head_not isPySpace (l.dropWhile isPySpace) h' _
          (by rw [dropWhile_dropWhile]; exact hpre')
      rw [ltrim_append_of_all _ _ htw]
      rw [show ltrim l = l.dropWhile isPySpace from rfl, hrd]
      rw [ltrim, List.dropWhile_cons, hh']
      simp

theorem pyStrip_rtrim (l : List Char) : pyStrip (rtrim l) = pyStrip l := by
  simp only [pyStrip]
  rw [ltrim_rtrim_comm l, rtrim_rtrim]

theorem countOcc_ltrim_le (pat l : List Char) :
    countOcc pat (ltrim l) ≤ countOcc pat l := by
  conv_rhs => rw [← List.takeWhile_append_dropWhile isPySpace l]
  exact countOcc_le_append_left pat _ _

theorem countOcc_rtrim_le (pat l : List Char) (hp : pat ≠ []) :
    countOcc pat (rtrim l) ≤ countOcc pat l := by
  conv_rhs => rw [← rtrim_append_takeWhile l]
  exact countOcc_le_append_right pat _ _ hp

theorem countOcc_pyStrip_le (pat l : List Char) (hp : pat ≠ []) :
    countOcc pat (pyStrip l) ≤ countOcc pat l :=
  le_trans (countOcc_rtrim_le pat (ltrim l) hp) (countOcc_ltrim_le pat l)

theorem containsSub_pyStrip_false (pat l : List Char) (hp : pat ≠ [])
    (h : containsSub pat l = false) : containsSub pat (pyStrip l) = false := by
  cases hc : containsSub pat (pyStrip l) with
  | false => rfl
  | true =>
    exfalso
    have h1 : 1 ≤ countOcc pat (pyStrip l) :=
      (containsSub_iff_countOcc_pos pat (pyStrip l)).mp hc
    have h2 : ¬ 1 ≤ countOcc pat l := by
      intro hcon
      have h3 := (containsSub_iff_countOcc_pos pat l).mpr hcon
      rw [h] at h3
      exact Bool.false_ne_true h3
    exact h2 (le_trans h1 (countOcc_pyStrip_le pat l hp))

theorem mKRS_eq : mKRS = '[' :: "KR_SHORT]".data := by decide

theorem mEN_eq : mEN = "[EN".data ++ [']'] := by decide

theorem ltrim_markers (a T : List Char) :
    ltrim (a ++ (mKRS ++ T)) = ltrim a ++ (mKRS ++ T) := by
  rw [mKRS_eq, List.cons_append]
  exact ltrim_append_cons a _ '[' (by decide)

theorem rtrim_markers (X d : List Char) :
    rtrim (X ++ (mEN ++ d)) = X ++ (mEN ++ rtrim d) := by
  rw [mEN_eq, List.append_assoc, List.singleton_append]
  rw [← List.append_assoc X]
  rw [rtrim_append_cons _ _ ']' (by decide)]
  simp [List.append_assoc]

theorem pyStrip_marker_decomp (a b c d : List Char) :
    pyStrip (a ++ (mKRS ++ (b ++ (mKRL ++ (c ++ (mEN ++ d))))))
      = ltrim a ++ (mKRS ++ (b ++ (mKRL ++ (c ++ (mEN ++ rtrim d))))) := by
  rw [pyStrip, ltrim_markers]
  rw [show ltrim a ++ (mKRS ++ (b ++ (mKRL ++ (c ++ (mEN ++ d)))))
        = (ltrim a ++ (mKRS ++ (b ++ (mKRL ++ c)))) ++ (mEN ++ d) by
      simp [List.append_assoc]]
  rw [rtrim_markers]
  simp [List.append_assoc]

theorem part_none_decomp (x y pat : List Char)
    (hcount : countOcc pat (x ++ (pat ++ y)) = 1) :
    part (x ++ (pat ++ y)) pat none = pyStrip y := by
  have hc : containsSub pat (x ++ (pat ++ y)) = true := containsSub_decomp pat x y
  simp only [part, hc, if_true]
  rw [afterFirst_decomp_unique pat x y hcount]

theorem part_some_decomp (x y z pat pat2 : List Char) (hp2 : pat2 ≠ [])
    (hcount : countOcc pat (x ++ (pat ++ (y ++ (pat2 ++ z)))) = 1)
    (hcount2 : countOcc pat2 (y ++ (pat2 ++ z)) = 1) :
    part (x ++ (pat ++ (y ++ (pat2 ++ z)))) pat (some pat2) = pyStrip y := by
  have hc : containsSub pat (x ++ (pat ++ (y ++ (pat2 ++ z)))) = true :=
    containsSub_decomp pat x _
  have hafter : afterFirst pat (x ++ (pat ++ (y ++ (pat2 ++ z)))) = y ++ (pat2 ++ z) :=
    afterFirst_decomp_unique pat x _ hcount
  have hc2 : containsSub pat2 (y ++ (pat2 ++ z)) = true := containsSub_decomp pat2 y z
  have hne : pat2.isEmpty = false := by
    cases pat2 with
    | nil => exact absurd rfl hp2
    | cons a t => rfl
  simp only [part, hc, if_true, hafter, hc2, hne, Bool.not_false, Bool.and_self, if_true]
  rw [beforeFirst_decomp_unique pat2 y z hcount2]

/-- C1 (counterexample to the claim as stated): the input
`"[KR_SHORT][KR_LONG][EN]"` contains each of the three markers exactly once
and in order, and every substring between consecutive markers (and after the
last one) strips to the empty string; the claim therefore predicts the
result `("", "", "")`, but `generate_three_answers` takes its final fallback
branch (line 146-147) and returns the whole text in `kr_short`. -/
theorem claimC1_counterexample :
    countOcc mKRS ("[KR_SHORT][KR_LONG][EN]".data) = 1 ∧
    countOcc mKRL ("[KR_SHORT][KR_LONG][EN]".data) = 1 ∧
    countOcc mEN ("[KR_SHORT][KR_LONG][EN]".data) = 1 ∧
    "[KR_SHORT][KR_LONG][EN]".data = [] ++ mKRS ++ [] ++ mKRL ++ [] ++ mEN ++ [] ∧
    generate_three_answers_split ("[KR_SHORT][KR_LONG][EN]".data)
      ≠ (pyStrip [], pyStrip [], pyStrip []) :=
  ⟨by decide, by decide, by decide, by decide, by decide⟩

/-- C1 (amended): for every model output containing the markers
`[KR_SHORT]`, `[KR_LONG]`, `[EN]` each exactly once and in that order, and
such that not all three inter-marker substrings strip to the empty string,
the splitting routine returns for each label exactly the substring between
its marker and the next defined marker (or the end of the text for `[EN]`),
with leading and trailing whitespace stripped.  (When all three stripped
substrings are empty, the routine instead returns the entire stripped text
in the first label — see the counterexample.) -/
theorem claimC1_amended (a b c d : List Char)
    (h1 : countOcc mKRS (a ++ mKRS ++ b ++ mKRL ++ c ++ mEN ++ d) = 1)
    (h2 : countOcc mKRL (a ++ mKRS ++ b ++ mKRL ++ c ++ mEN ++ d) = 1)
    (h3 : countOcc mEN (a ++ mKRS ++ b ++ mKRL ++ c ++ mEN ++ d) = 1)
    (hne : ¬(pyStrip b = [] ∧ pyStrip c = [] ∧ pyStrip d = [])) :
    generate_three_answers_split (a ++ mKRS ++ b ++ mKRL ++ c ++ mEN ++ d)
      = (pyStrip b, pyStrip c, pyStrip d) := by
  have heq : a ++ mKRS ++ b ++ mKRL ++ c ++ mEN ++ d
      = a ++ (mKRS ++ (b ++ (mKRL ++ (c ++ (mEN ++ d))))) := by
    simp [List.append_assoc]
  rw [heq] at h1 h2 h3 ⊢
  have hKRSne : mKRS ≠ [] := by decide
  have hKRLne : mKRL ≠ [] := by decide
  have hENne : mEN ≠ [] := by decide
  have hfull := pyStrip_marker_decomp a b c d
  have hsh2 : ltrim a ++ (mKRS ++ (b ++ (mKRL ++ (c ++ (mEN ++ rtrim d)))))
      = (ltrim a ++ (mKRS ++ b)) ++ (mKRL ++ (c ++ (mEN ++ rtrim d))) := by
    simp [List.append_assoc]
  have hsh3 : ltrim a ++ (mKRS ++ (b ++ (mKRL ++ (c ++ (mEN ++ rtrim d)))))
      = (ltrim a ++ (mKRS ++ (b ++ (mKRL ++ c)))) ++ (mEN ++ rtrim d) := by
    simp [List.append_assoc]
  have hc1 : countOcc mKRS
      (ltrim a ++ (mKRS ++ (b ++ (mKRL ++ (c ++ (mEN ++ rtrim d)))))) = 1 := by
    have hle := countOcc_pyStrip_le mKRS
      (a ++ (mKRS ++ (b ++ (mKRL ++ (c ++ (mEN ++ d)))))) hKRSne
    rw [hfull] at hle
    have hge := countOcc_decomp_pos mKRS (ltrim a) (b ++ (mKRL ++ (c ++ (mEN ++ rtrim d))))
    omega
  have hc2 : countOcc mKRL
      ((ltrim a ++ (mKRS ++ b)) ++ (mKRL ++ (c ++ (mEN ++ rtrim d)))) = 1 := by
    have hle := countOcc_pyStrip_le mKRL
      (a ++ (mKRS ++ (b ++ (mKRL ++ (c ++ (mEN ++ d)))))) hKRLne
    rw [hfull, hsh2] at hle
    have hge := countOcc_decomp_pos mKRL (ltrim a ++ (mKRS ++ b)) (c ++ (mEN ++ rtrim d))
    omega
  have hc3 : countOcc mEN
      ((ltrim a ++ (mKRS ++ (b ++ (mKRL ++ c)))) ++ (mEN ++ rtrim d)) = 1 := by
    have hle := countOcc_pyStrip_le mEN
      (a ++ (mKRS ++ (b ++ (mKRL ++ (c ++ (mEN ++ d)))))) hENne
    rw [hfull, hsh3] at hle
    have hge := countOcc_decomp_pos mEN (ltrim a ++ (mKRS ++ (b ++ (mKRL ++ c)))) (rtrim d)
    omega
  have hc2full : countOcc mKRL
      (ltrim a ++ (mKRS ++ (b ++ (mKRL ++ (c ++ (mEN ++ rtrim d)))))) = 1 := by
    rw [hsh2]; exact hc2
  have hcnt2seg : countOcc mKRL (b ++ (mKRL ++ (c ++ (mEN ++ rtrim d)))) = 1 := by
    have hle1 := countOcc_le_append_left mKRL mKRS (b ++ (mKRL ++ (c ++ (mEN ++ rtrim d))))
    have hle2 := countOcc_le_append_left mKRL (ltrim a)
      (mKRS ++ (b ++ (mKRL ++ (c ++ (mEN ++ rtrim d)))))
    have hge := countOcc_decomp_pos mKRL b (c ++ (mEN ++ rtrim d))
    omega
  have hcnt3seg : countOcc mEN (c ++ (mEN ++ rtrim d)) = 1 := by
    have hle1 := countOcc_le_append_left mEN mKRL (c ++ (mEN ++ rtrim d))
    have hle2 := countOcc_le_append_left mEN b (mKRL ++ (c ++ (mEN ++ rtrim d)))
    have hle3 := countOcc_le_append_left mEN mKRS (b ++ (mKRL ++ (c ++ (mEN ++ rtrim d))))
    have hle4 := countOcc_le_append_left mEN (ltrim a)
      (mKRS ++ (b ++ (mKRL ++ (c ++ (mEN ++ rtrim d)))))
    have hc3full : countOcc mEN
        (ltrim a ++ (mKRS ++ (b ++ (mKRL ++ (c ++ (mEN ++ rtrim d)))))) = 1 := by
      rw [hsh3]; exact hc3
    have hge := countOcc_decomp_pos mEN c (rtrim d)
    omega
  have hpart1 : part (ltrim a ++ (mKRS ++ (b ++ (mKRL ++ (c ++ (mEN ++ rtrim d))))))
      mKRS (some mKRL) = pyStrip b :=
    part_some_decomp (ltrim a) b (c ++ (mEN ++ rtrim d)) mKRS mKRL hKRLne hc1 hcnt2seg
  have hpart2 : part (ltrim a ++ (mKRS ++ (b ++ (mKRL ++ (c ++ (mEN ++ rtrim d))))))
      mKRL (some mEN) = pyStrip c := by
    rw [hsh2]
    exact part_some_decomp (ltrim a ++ (mKRS ++ b)) c (rtrim d) mKRL mEN hENne hc2 hcnt3seg
  have hpart3 : part (ltrim a ++ (mKRS ++ (b ++ (mKRL ++ (c ++ (mEN ++ rtrim d))))))
      mEN none = pyStrip d := by
    rw [hsh3]
    rw [part_none_decomp (ltrim a ++ (mKRS ++ (b ++ (mKRL ++ c)))) (rtrim d) mEN hc3]
    exact pyStrip_rtrim d
  have hcond : ((pyStrip b).isEmpty && (pyStrip c).isEmpty && (pyStrip d).isEmpty) = false := by
    by_cases hb : pyStrip b = []
    · by_cases hcc : pyStrip c = []
      · by_cases hd : pyStrip d = []
        · exact absurd ⟨hb, hcc, hd⟩ hne
        · simp [List.isEmpty_iff, hd]
      · simp [List.isEmpty_iff, hcc]
    · simp [List.isEmpty_iff, hb]
  simp only [generate_three_answers_split]
  rw [hfull, hpart1, hpart2, hpart3, hcond]
  simp

/-- C1 (witness): the amended theorem applied to the concrete input
`"[KR_SHORT] hi [KR_LONG] lo [EN] en "`. -/
theorem claimC1_witness :
    countOcc mKRS ([] ++ mKRS ++ " hi ".data ++ mKRL ++ " lo ".data ++ mEN ++ " en ".data) = 1 ∧
    countOcc mKRL ([] ++ mKRS ++ " hi ".data ++ mKRL ++ " lo ".data ++ mEN ++ " en ".data) = 1 ∧
    countOcc mEN ([] ++ mKRS ++ " hi ".data ++ mKRL ++ " lo ".data ++ mEN ++ " en ".data) = 1 ∧
    ¬(pyStrip (" hi ".data) = [] ∧ pyStrip (" lo ".data) = [] ∧ pyStrip (" en ".data) = []) ∧
    generate_three_answers_split
        ([] ++ mKRS ++ " hi ".data ++ mKRL ++ " lo ".data ++ mEN ++ " en ".data)
      = (pyStrip (" hi ".data), pyStrip (" lo ".data), pyStrip (" en ".data)) :=
  ⟨by decide, by decide, by decide, by decide,
   claimC1_amended [] (" hi ".data) (" lo ".data) (" en ".data)
     (by decide) (by decide) (by decide) (by decide)⟩

/-- C2 (counterexample to the claim as stated): in `"[KR_LONG]hi[EN]yo"` the
marker `[KR_SHORT]` does not occur (so "one or more of the expected markers
do not occur"), yet the routine does not assign the full text to `kr_short`:
it returns `("", "hi", "yo")`, because the fallback at lines 146-147 fires
only when all three extracted parts are empty. -/
theorem claimC2_counterexample :
    containsSub mKRS ("[KR_LONG]hi[EN]yo".data) = false ∧
    generate_three_answers_split ("[KR_LONG]hi[EN]yo".data)
      ≠ (pyStrip ("[KR_LONG]hi[EN]yo".data), [], []) ∧
    generate_three_answers_split ("[KR_LONG]hi[EN]yo".data)
      = ([], "hi".data, "yo".data) :=
  ⟨by decide, by decide, by decide⟩

/-- C2 (amended): for every model output in which none of the three expected
markers occurs, the splitting routine assigns the full (stripped) text to
the first label `kr_short` and the empty string — never `None` — to the
other two labels. -/
theorem claimC2_amended (s : List Char)
    (h1 : containsSub mKRS s = false) (h2 : containsSub mKRL s = false)
    (h3 : containsSub mEN s = false) :
    generate_three_answers_split s = (pyStrip s, [], []) := by
  have h1' := containsSub_pyStrip_false mKRS s (by decide) h1
  have h2' := containsSub_pyStrip_false mKRL s (by decide) h2
  have h3' := containsSub_pyStrip_false mEN s (by decide) h3
  simp only [generate_three_answers_split, part, h1', h2', h3']
  simp

/-- C2 (witness): the amended theorem applied to the concrete input
`"just one answer"`. -/
theorem claimC2_witness :
    containsSub mKRS ("just one answer".data) = false ∧
    containsSub mKRL ("just one answer".data) = false ∧
    containsSub mEN ("just one answer".data) = false ∧
    generate_three_answers_split ("just one answer".data)
      = (pyStrip ("just one answer".data), [], []) :=
  ⟨by decide, by decide, by decide,
   claimC2_amended ("just one answer".data) (by decide) (by decide) (by decide)⟩

/-- C3 (counterexample to the claim as stated): on the empty and on a
whitespace-only model output, `generate_three_answers` returns the empty
string in `kr_short` (the stripped full text) — there is no fixed
"could not generate" fallback message anywhere in this code; the
placeholder `"_(생성 결과 없음)_"` at lines 302-314 is only rendered by the
UI when displaying an empty candidate, and is never stored in the returned
mapping. -/
theorem claimC3_counterexample :
    generate_three_answers_split ("".data) = ([], [], []) ∧
    generate_three_answers_split ("   \n\t ".data) = ([], [], []) :=
  ⟨by decide, by decide⟩

/-- C3 (amended): for every model output that is empty or consists only of
whitespace, the splitting routine returns the empty string in all three
labels; no fallback message is substituted. -/
theorem claimC3_amended (s : List Char) (h : ∀ ch ∈ s, isPySpace ch = true) :
    generate_three_answers_split s = ([], [], []) := by
  have hl : ltrim s = [] := by
    rw [ltrim, List.dropWhile_eq_nil_iff]
    exact h
  have hstrip : pyStrip s = [] := by
    rw [pyStrip, hl]
    rfl
  simp only [generate_three_answers_split, hstrip]
  decide

/-- C3 (witness): the amended theorem applied to the concrete whitespace-only
input `"  \n\t "`. -/
theorem claimC3_witness :
    (∀ ch ∈ ("  \n\t ".data), isPySpace ch = true) ∧
    generate_three_answers_split ("  \n\t ".data) = ([], [], []) :=
  ⟨by decide, claimC3_amended ("  \n\t ".data) (by decide)⟩

/-- C4: in every state in which a candidate set is pending (the candidate
section is rendered: `pending_selection` is set and the stored candidate
mapping has a truthy value, so the selection buttons exist), choosing any of
the three selection actions appends exactly one assistant message whose
content is the chosen label's candidate text, leaves every previously
appended transcript entry unmodified, and returns the machine to Idle
(`pending_selection` false, candidate set empty). -/
theorem claimC4_selection (s : AppState) (c : Candidates) (lab : Label)
    (hc : s.candidates = some c) (hg : candidateGate s = true) :
    (selectStep s lab).history = s.history ++ [Message.mk Role.assistant (c.get lab)] ∧
    (selectStep s lab).pending_selection = false ∧
    (selectStep s lab).candidates = none ∧
    (selectStep s lab).last_usage = s.last_usage ∧
    (selectStep s lab).auto_preview = s.auto_preview := by
  simp [selectStep, hg, hc]

/-- C4 (witness): selecting the English candidate from a concrete
awaiting-selection state. -/
theorem claimC4_witness :
    samplePending.candidates = some sampleCands ∧
    candidateGate samplePending = true ∧
    ((selectStep samplePending Label.en).history
        = samplePending.history ++ [Message.mk Role.assistant (sampleCands.get Label.en)] ∧
     (selectStep samplePending Label.en).pending_selection = false ∧
     (selectStep samplePending Label.en).candidates = none ∧
     (selectStep samplePending Label.en).last_usage = samplePending.last_usage ∧
     (selectStep samplePending Label.en).auto_preview = samplePending.auto_preview) :=
  ⟨rfl, by decide, claimC4_selection samplePending sampleCands Label.en rfl (by decide)⟩

/-- C5: at most one candidate set is outstanding at any time — submitting a
new (non-empty) question while a previous candidate set is unresolved
unconditionally replaces the stored candidate mapping: with the fresh set on
success, with the empty dict on failure.  The pending flag follows suit, so
the prior set is never again reachable for selection. -/
theorem claimC5_replace_candidates (s : AppState) (q : String) (r : SynthResult)
    (_hp : s.pending_selection = true) (hq : q ≠ "") :
    (submitStep s q r).candidates = freshCandidates r ∧
    (submitStep s q r).pending_selection = (freshCandidates r).isSome := by
  cases r with
  | ok c u =>
    simp only [submitStep, if_neg hq, freshCandidates]
    constructor
    · split <;> rfl
    · split <;> rfl
  | err e =>
    simp [submitStep, if_neg hq, freshCandidates]

/-- C5 (witness): a failed resubmission from a concrete awaiting-selection
state discards the pending candidate set. -/
theorem claimC5_witness :
    samplePending.pending_selection = true ∧
    (("새 질문" : String) ≠ "") ∧
    ((submitStep samplePending ("새 질문") (SynthResult.err ExcKind.connectError)).candidates
        = freshCandidates (SynthResult.err ExcKind.connectError) ∧
     (submitStep samplePending ("새 질문") (SynthResult.err ExcKind.connectError)).pending_selection
        = (freshCandidates (SynthResult.err ExcKind.connectError)).isSome) :=
  ⟨rfl, by decide,
   claimC5_replace_candidates samplePending ("새 질문") (SynthResult.err ExcKind.connectError)
     rfl (by decide)⟩

/-- C6: from every state, the reset action leaves the transcript empty, the
candidate set empty, and the pending-selection flag false. -/
theorem claimC6_reset (s : AppState) :
    (resetStep s).history = [] ∧ (resetStep s).candidates = none ∧
    (resetStep s).pending_selection = false := by
  simp [resetStep]

/-- C7: every failure raised during candidate synthesis on a user turn is
caught at the turn boundary (the step is total and yields a usable state):
the transcript gains only the user message and no assistant entry for that
turn, the candidate set is set to the empty dict, and the pending flag is
set to false; last_usage and the auto-preview option are untouched. -/
theorem claimC7_failure_caught (s : AppState) (q : String) (e : ExcKind) (hq : q ≠ "") :
    submitStep s q (SynthResult.err e)
      = { s with
            history := s.history ++ [Message.mk Role.user q],
            candidates := none,
            pending_selection := false } := by
  cases s with
  | mk h cn p u ap => simp [submitStep, hq]

/-- C7 (witness): a rate-limited turn from the initial state leaves a usable
idle state containing only the user message. -/
theorem claimC7_witness :
    (("질문2" : String) ≠ "") ∧
    submitStep initState ("질문2") (SynthResult.err (ExcKind.rateLimitError ("429")))
      = { initState with
            history := initState.history ++ [Message.mk Role.user ("질문2")],
            candidates := none,
            pending_selection := false } :=
  ⟨by decide,
   claimC7_failure_caught initState ("질문2") (ExcKind.rateLimitError ("429")) (by decide)⟩

/-- C8 (counterexample to the claim as stated): authentication failures and
rate-limit rejections are not distinct cases at the turn boundary.  The
OpenAI client raises its own `AuthenticationError` / `RateLimitError`
classes, which are none of the three imported httpx exception types, so both
are caught by the bare `except Exception` block and produce the very same
"알 수 없는 오류(응답 생성 단계): ..." message; no message instructing
credential replacement exists in the code. -/
theorem claimC8_counterexample :
    catchBranch (ExcKind.authenticationError ("Incorrect API key provided"))
      = ErrBranch.unclassified ∧
    catchBranch (ExcKind.rateLimitError ("Rate limit reached"))
      = ErrBranch.unclassified ∧
    errDisplay (ExcKind.authenticationError ("boom"))
      = errDisplay (ExcKind.rateLimitError ("boom")) :=
  ⟨rfl, rfl, rfl⟩

/-- C8 (amended): the turn boundary distinguishes three cases, not four:
HTTP status failures, network/transport failures (`ConnectError` and
`ReadTimeout` share one fixed retry-later message), and unclassified
failures.  Authentication and rate-limit failures both land in the
unclassified case with an identical message format — the handler shows the
raw message text, not a credential-replacement instruction — and that
unclassified message is distinct from the network message. -/
theorem claimC8_amended (m1 m2 : String) :
    catchBranch (ExcKind.authenticationError m1) = ErrBranch.unclassified ∧
    catchBranch (ExcKind.rateLimitError m2) = ErrBranch.unclassified ∧
    errDisplay ExcKind.connectError = errDisplay ExcKind.readTimeout ∧
    (m1 = m2 → errDisplay (ExcKind.authenticationError m1)
        = errDisplay (ExcKind.rateLimitError m2)) ∧
    errDisplay (ExcKind.authenticationError m1) ≠ errDisplay ExcKind.connectError := by
  refine ⟨rfl, rfl, rfl, ?_, ?_⟩
  · intro h
    rw [h]
    rfl
  · intro hcon
    have hd := congrArg String.data hcon
    rw [show errDisplay (ExcKind.authenticationError m1)
          = ("알 수 없는 오류(응답 생성 단계): " : String) ++ m1 from rfl] at hd
    rw [String.data_append] at hd
    have hx : ∃ t, ("알 수 없는 오류(응답 생성 단계): " : String).data = '알' :: t := ⟨_, rfl⟩
    obtain ⟨t, ht⟩ := hx
    rw [ht, List.cons_append] at hd
    have hh := congrArg List.head? hd
    rw [show ('알' :: (t ++ m1.data)).head? = some '알' from rfl] at hh
    rw [show ((errDisplay ExcKind.connectError).data).head? = some '네' from rfl] at hh
    exact absurd hh (by decide)

/-- C8 (witness): the amended theorem applied to two concrete raw messages. -/
theorem claimC8_witness :
    catchBranch (ExcKind.authenticationError ("invalid api key")) = ErrBranch.unclassified ∧
    catchBranch (ExcKind.rateLimitError ("invalid api key")) = ErrBranch.unclassified ∧
    errDisplay ExcKind.connectError = errDisplay ExcKind.readTimeout ∧
    (("invalid api key" : String) = "invalid api key" →
      errDisplay (ExcKind.authenticationError ("invalid api key"))
        = errDisplay (ExcKind.rateLimitError ("invalid api key"))) ∧
    errDisplay (ExcKind.authenticationError ("invalid api key"))
      ≠ errDisplay ExcKind.connectError :=
  claimC8_amended ("invalid api key") ("invalid api key")

theorem reachable_pending_eq_isSome {s : AppState} (h : Reachable s) :
    s.pending_selection = s.candidates.isSome := by
  induction h with
  | init => rfl
  | reset _ _ => rfl
  | @select s' lab _ ih =>
    simp only [selectStep]
    split
    · cases hc : s'.candidates with
      | none => simpa using ih
      | some c => simp
    · exact ih
  | @regen s' r _ ih =>
    cases hg : candidateGate s' with
    | false => simpa [regenStep, hg] using ih
    | true =>
      cases hl : s'.history.getLast? with
      | none => simpa [regenStep, hg, hl] using ih
      | some m =>
        by_cases hcond : m.role = Role.user ∧ m.content ≠ ""
        · cases r with
          | ok c u => simp [regenStep, hg, hl, hcond]
          | err e => simpa [regenStep, hg, hl, hcond] using ih
        · simpa [regenStep, hg, hl, hcond] using ih
  | @submit s' q r _ ih =>
    by_cases hq : q = ""
    · simpa [submitStep, hq] using ih
    · cases r with
      | ok c u =>
        simp only [submitStep, if_neg hq]
        split <;> rfl
      | err e => simp [submitStep, if_neg hq]
  | @toggle s' b _ ih => simpa [setAutoPreview] using ih

/-- C9: in every reachable session state, the pending-selection flag is set
exactly when a stored candidate mapping exists.  (The proof is by induction
over all reachable states, so every operation — question submission,
selection, regeneration, error handling, reset and the auto-preview toggle —
preserves the equivalence.) -/
theorem claimC9_pending_iff_candidates (s : AppState) (h : Reachable s) :
    s.pending_selection = true ↔ ∃ c, s.candidates = some c := by
  have hx := reachable_pending_eq_isSome h
  constructor
  · intro hp
    rw [hp] at hx
    cases hc : s.candidates with
    | none =>
      rw [hc] at hx
      exact absurd hx.symm (by decide)
    | some c => exact ⟨c, rfl⟩
  · intro hec
    obtain ⟨c, hc⟩ := hec
    rw [hc] at hx
    simpa using hx

/-- C9 (witness): the invariant at the initial state. -/
theorem claimC9_witness :
    Reachable initState ∧
    (initState.pending_selection = true ↔ ∃ c, initState.candidates = some c) :=
  ⟨Reachable.init, claimC9_pending_iff_candidates initState Reachable.init⟩

/-- C10: the regenerate action re-invokes synthesis only when the last
transcript entry has role user (with non-empty content, under the rendered
candidate section); whenever the last entry is an assistant message — in
particular after a successful turn with auto-preview on appended a preview —
regeneration performs no synthesis call and leaves the transcript, the
candidate set and the pending flag (the whole state) unchanged, for every
possible synthesis outcome. -/
theorem claimC10_regenerate_guard (s : AppState) (r : SynthResult) :
    ((regenStep s r).2 = true →
      ∃ m, s.history.getLast? = some m ∧ m.role = Role.user) ∧
    (∀ m, s.history.getLast? = some m → m.role = Role.assistant →
      regenStep s r = (s, false)) := by
  constructor
  · intro hcall
    cases hg : candidateGate s with
    | false => simp [regenStep, hg] at hcall
    | true =>
      cases hl : s.history.getLast? with
      | none => simp [regenStep, hg, hl] at hcall
      | some m =>
        by_cases hcond : m.role = Role.user ∧ m.content ≠ ""
        · exact ⟨m, rfl, hcond.1⟩
        · exfalso
          simp [regenStep, hg, hl, hcond] at hcall
  · intro m hl hrole
    cases hg : candidateGate s with
    | false => simp [regenStep, hg]
    | true =>
      have hcond : ¬(m.role = Role.user ∧ m.content ≠ "") := by
        intro hand
        rw [hrole] at hand
        exact absurd hand.1 (by decide)
      simp [regenStep, hg, hl, hcond]

/-- C10 (witness): after an auto-preview turn (last entry assistant) the
regenerate button changes nothing and calls no synthesis; from a state whose
last entry is the user question, the synthesis-called flag implies that
shape. -/
theorem claimC10_witness :
    regenStep sampleAfterPreview (SynthResult.ok sampleCands none)
      = (sampleAfterPreview, false) ∧
    (∃ m, samplePending.history.getLast? = some m ∧ m.role = Role.user) :=
  ⟨(claimC10_regenerate_guard sampleAfterPreview (SynthResult.ok sampleCands none)).2
      (Message.mk Role.assistant ("(미리보기)\n간결한 답")) (by decide) rfl,
   (claimC10_regenerate_guard samplePending (SynthResult.err ExcKind.connectError)).1
      (by decide)⟩

end ChatBot
